import Mathlib

/-!
Verification of the pondpilot/cors-proxy security core.

This file gives a shallow embedding of the repository's validation pipeline:

* `src/shared/security.js` — SSRF guard (`isPrivateIP`), domain allowlist
  matching (`isAllowedDomain`), URL validation (`validateTargetUrl`),
  pattern compilation (`parseAllowedDomains`, `validatePatternComplexity`)
  and upstream-response validation (`validateResponse`);
* `src/self-hosted/security.ts` — the older, divergent copies of the same
  functions (namespace `SelfSec`);
* `src/cloudflare-worker/worker.ts` — the worker front end (`Worker`);
* `src/self-hosted/server.ts` — the path-segment front end of the
  self-hosted server, including its streaming size enforcer (`Server`).

JavaScript strings are modelled as Lean `String`; all string operations
(`toLowerCase`, `split`, `trim`, `startsWith`, ...) are implemented over the
underlying character list so that every definition evaluates by kernel
reduction.  The platform's WHATWG `new URL(...)` parser is external to the
repository, so every place the source calls it the model receives the parse
outcome (`Option ParsedUrl`) as an input.  Regular expressions appearing in
the source are translated to an explicit token list (`Tok`) together with a
standard backtracking matcher; the compiled user patterns escape every regex
metacharacter except `*`, so each non-`*` character is a literal and `*`
becomes either the non-dot wildcard `[^.]*` (shared module) or the
dot-crossing wildcard `.*` (self-hosted module).
-/

/-- JavaScript `toLowerCase`, restricted to the ASCII range used by the
hostnames and patterns in this repository. -/
def lowerStr (s : String) : String := String.mk (s.data.map Char.toLower)

/-- Boolean list prefix test (first argument is the candidate prefix). -/
def listStarts : List Char → List Char → Bool
  | [], _ => true
  | _ :: _, [] => false
  | p :: ps, c :: cs => (p == c) && listStarts ps cs

/-- JavaScript `s.startsWith(p)`. -/
def strStarts (s p : String) : Bool := listStarts p.data s.data

/-- JavaScript `s.endsWith(p)`. -/
def strEnds (s p : String) : Bool := listStarts p.data.reverse s.data.reverse

/-- Split a character list at every occurrence of `sep` (JavaScript
`String.prototype.split` with a single-character separator). -/
def splitOnChar (sep : Char) : List Char → List (List Char)
  | [] => [[]]
  | c :: cs =>
    if c == sep then [] :: splitOnChar sep cs
    else
      match splitOnChar sep cs with
      | [] => [[c]]
      | seg :: rest => (c :: seg) :: rest

/-- The whitespace characters relevant to `trim` for this repository's
configuration strings. -/
def isSpaceChar (c : Char) : Bool := c == ' ' || c == '\t' || c == '\n' || c == '\r'

/-- JavaScript `s.trim()`. -/
def trimList (l : List Char) : List Char :=
  ((l.dropWhile isSpaceChar).reverse.dropWhile isSpaceChar).reverse

/-- JavaScript `s.trim()` on `String`. -/
def trimStr (s : String) : String := String.mk (trimList s.data)

/-- `domainsString.split(',').map(d => d.trim()).filter(d => d.length > 0)` —
the segment extraction common to both `parseAllowedDomains`
implementations. -/
def splitSegments (s : String) : List String :=
  ((splitOnChar ',' s.data).map (fun l => String.mk (trimList l))).filter
    (fun d => d.data.length > 0)

/-- One token of a compiled domain regex.  `lit c` matches the single
character `c` case-insensitively (the compiled user regexes carry the `i`
flag; the default patterns are all lower-case and are only ever applied to
lower-cased hostnames, so case-insensitive literal matching is extensionally
faithful at every use site).  `nonDotStar` is `[^.]*`, `dotStar` is `.*`,
and `alnumPlus` is `[0-9a-z]+` (used only by the CloudFront default
pattern). -/
inductive Tok where
  | lit (c : Char)
  | nonDotStar
  | dotStar
  | alnumPlus
deriving DecidableEq, Repr

/-- A compiled domain matcher: the anchored concatenation of its tokens. -/
abbrev DomainPattern := List Tok

/-- Membership in the character class `[0-9a-z]`. -/
def isLowerAlnum (c : Char) : Bool := c.isDigit || (c.isLower && c.isAlpha)

/-- Backtracking matcher for anchored token sequences.  The fuel argument
only forces structural recursion; every recursive call strictly decreases
`tokens.length + chars.length`, so the fuel supplied by `patMatch` is never
exhausted. -/
def patMatchAux : Nat → List Tok → List Char → Bool
  | 0, _, _ => false
  | _ + 1, [], [] => true
  | _ + 1, [], _ :: _ => false
  | _ + 1, Tok.lit _ :: _, [] => false
  | f + 1, Tok.lit c :: ts, x :: xs => (x.toLower == c.toLower) && patMatchAux f ts xs
  | f + 1, Tok.nonDotStar :: ts, s =>
      patMatchAux f ts s ||
      (match s with
       | [] => false
       | x :: xs => (x != '.') && patMatchAux f (Tok.nonDotStar :: ts) xs)
  | f + 1, Tok.dotStar :: ts, s =>
      patMatchAux f ts s ||
      (match s with
       | [] => false
       | _ :: xs => patMatchAux f (Tok.dotStar :: ts) xs)
  | f + 1, Tok.alnumPlus :: ts, s =>
      match s with
      | [] => false
      | x :: xs => isLowerAlnum x && (patMatchAux f ts xs || patMatchAux f (Tok.alnumPlus :: ts) xs)

/-- `pattern.test(hostname)` for a compiled anchored pattern. -/
def patMatch (ts : List Tok) (s : List Char) : Bool :=
  patMatchAux (ts.length + s.length + 1) ts s

/-- Literal token sequence for a plain string. -/
def lits (s : String) : List Tok := s.data.map Tok.lit

/-- The outcome of the platform's `new URL(targetUrl)`: `protocol` is the
scheme including the trailing colon (e.g. `"https:"`) and `hostname` the
host component.  URL parsing itself is a platform collaborator, so handlers
receive the parse outcome as an input (`none` models the `TypeError` branch
of the `try/catch`). -/
structure ParsedUrl where
  protocol : String
  hostname : String
deriving DecidableEq, Repr

/-- The error payloads of the validators.  Each constructor corresponds to
one message template in the source; the arguments carry exactly the data the
template interpolates. -/
inductive ErrorMsg where
  | invalidUrlFormat
  | protocolNotAllowed (protocol : String) (allowed : List String)
  | httpsOnlyMsg
  | privateAddress
  | notInAllowlist (hostname : String)
  | redirectsNotSupported
  | fileTooLarge (contentLengthBytes : Nat) (maxFileSizeMB : Nat)
deriving DecidableEq, Repr

/-- `ValidationResult` from the source. -/
structure ValidationResult where
  valid : Bool
  error : Option ErrorMsg := none
deriving DecidableEq, Repr

/-- `SecurityConfig` from the source.  `none` models an `undefined` field
(the JS defaults `config.allowedProtocols || [...]` and
`config.allowedDomains || DEFAULT_ALLOWED_DOMAINS` fire only on `undefined`,
because an empty array is truthy). -/
structure SecurityConfig where
  allowedDomains : Option (List DomainPattern) := none
  allowedProtocols : Option (List String) := none
  httpsOnly : Bool := false
deriving Repr

namespace Shared

/-- `BLOCKED_HOSTNAMES` of `src/shared/security.js`. -/
def BLOCKED_HOSTNAMES : List String :=
  ["localhost", "0.0.0.0", "metadata.google.internal", "kubernetes", "kubernetes.default"]

/-- The prefix-shaped members of `PRIVATE_IP_PATTERNS`: each regex
`/^p/` with a literal body is a case-sensitive prefix test. -/
def PRIVATE_IP_PREFIXES : List String :=
  ["127.", "10.", "192.168.", "169.254.", "0.", "224.", "240.", "fe80:", "fc00:", "fd00:"]

/-- The regex `/^172\.(1[6-9]|2[0-9]|3[0-1])\./` matches exactly the strings
beginning with `172.`, a two-digit number from 16 to 31, and a dot. -/
def PRIVATE_172_PREFIXES : List String :=
  ["172.16.", "172.17.", "172.18.", "172.19.", "172.20.", "172.21.", "172.22.", "172.23.",
   "172.24.", "172.25.", "172.26.", "172.27.", "172.28.", "172.29.", "172.30.", "172.31."]

/-- The exact-match members of `PRIVATE_IP_PATTERNS` (`/^255\.255\.255\.255$/`
and `/^::1$/`). -/
def PRIVATE_IP_EXACT : List String := ["255.255.255.255", "::1"]

/-- `isPrivateIP` of `src/shared/security.js`: the blocked-hostname list is
compared against the lower-cased hostname, the IP patterns against the
hostname as given (they carry no `i` flag). -/
def isPrivateIP (hostname : String) : Bool :=
  BLOCKED_HOSTNAMES.contains (lowerStr hostname) ||
  ((PRIVATE_IP_PREFIXES ++ PRIVATE_172_PREFIXES).any (fun p => strStarts hostname p) ||
   PRIVATE_IP_EXACT.contains hostname)

/-- `DEFAULT_ALLOWED_DOMAINS` of `src/shared/security.js`, with each regex
translated token by token. -/
def DEFAULT_ALLOWED_DOMAINS : List DomainPattern :=
  [ Tok.dotStar :: lits ".s3.amazonaws.com",
    Tok.dotStar :: (lits ".s3." ++ [Tok.dotStar] ++ lits ".amazonaws.com"),
    lits "s3.amazonaws.com",
    lits "s3." ++ [Tok.dotStar] ++ lits ".amazonaws.com",
    Tok.lit 'd' :: Tok.alnumPlus :: lits ".cloudfront.net",
    Tok.dotStar :: lits ".github.io",
    Tok.dotStar :: lits ".githubusercontent.com",
    lits "raw.githubusercontent.com",
    lits "storage.googleapis.com",
    Tok.dotStar :: lits ".storage.googleapis.com",
    Tok.dotStar :: lits ".blob.core.windows.net",
    lits "data.gov",
    Tok.dotStar :: lits ".data.gov",
    lits "data.gouv.fr",
    Tok.dotStar :: lits ".data.gouv.fr" ]

/-- `isAllowedDomain` of `src/shared/security.js`: the hostname is
lower-cased and tested against each pattern. -/
def isAllowedDomain (hostname : String) (allowedDomains : List DomainPattern) : Bool :=
  allowedDomains.any fun pat => patMatch pat (lowerStr hostname).data

/-- `validateTargetUrl` of `src/shared/security.js`.  The first argument is
the outcome of `new URL(targetUrl)`. -/
def validateTargetUrl (target : Option ParsedUrl) (config : SecurityConfig) : ValidationResult :=
  match target with
  | none => ⟨false, some ErrorMsg.invalidUrlFormat⟩
  | some parsed =>
    let allowedProtocols := config.allowedProtocols.getD ["https:", "http:"]
    if allowedProtocols.contains parsed.protocol = false then
      ⟨false, some (ErrorMsg.protocolNotAllowed parsed.protocol allowedProtocols)⟩
    else if (config.httpsOnly && parsed.protocol != "https:") = true then
      ⟨false, some ErrorMsg.httpsOnlyMsg⟩
    else if isPrivateIP parsed.hostname = true then
      ⟨false, some ErrorMsg.privateAddress⟩
    else if isAllowedDomain parsed.hostname (config.allowedDomains.getD DEFAULT_ALLOWED_DOMAINS) = false then
      ⟨false, some (ErrorMsg.notInAllowlist parsed.hostname)⟩
    else ⟨true, none⟩

/-- Number of `*` characters in a pattern: the length of
`pattern.match(/\*/g) || []`. -/
def wildcardCount (p : String) : Nat := p.data.countP (fun c => c == '*')

/-- The union of the two `dangerousPatterns` regexes `/(\*\.?){2,}/` and
`/\*\*+/`: an unanchored match exists exactly when the pattern contains the
substring `**` or the substring `*.*` (two consecutive `\*\.?` groups, the
optional trailing dot of the second group being irrelevant; `/\*\*+/` is
subsumed). -/
def hasDangerousPair : List Char → Bool
  | [] => false
  | c :: rest =>
    (c == '*' &&
      (match rest with
       | [] => false
       | c2 :: rest2 =>
         (c2 == '*') ||
         (c2 == '.' &&
           (match rest2 with
            | [] => false
            | c3 :: _ => c3 == '*')))) ||
    hasDangerousPair rest

/-- `validatePatternComplexity` of `src/shared/security.js` (the textual
reason strings are irrelevant to the claims; the warning it triggers is a
console side effect and the segment is simply dropped). -/
def validatePatternComplexity (p : String) : Bool :=
  !(decide (p.length > 100)) && (!(decide (wildcardCount p > 3)) && !(hasDangerousPair p.data))

/-- Compilation of one accepted segment: every regex metacharacter except
`*` is escaped, so each non-`*` character matches literally, and `*` becomes
`[^.]*`; the regex is anchored and case-insensitive. -/
def compilePattern (p : String) : DomainPattern :=
  p.data.map fun c => if c == '*' then Tok.nonDotStar else Tok.lit c

/-- One segment of `parseAllowedDomains`: `none` when the complexity check
rejects it (the `new RegExp` construction cannot throw after escaping). -/
def compileSegment (p : String) : Option DomainPattern :=
  if validatePatternComplexity p then some (compilePattern p) else none

/-- `parseAllowedDomains` of `src/shared/security.js`; `none` models the
`undefined` argument. -/
def parseAllowedDomains (domainsString : Option String) : List DomainPattern :=
  match domainsString with
  | none => DEFAULT_ALLOWED_DOMAINS
  | some s =>
    if trimStr s = "" then DEFAULT_ALLOWED_DOMAINS
    else
      let patterns := (splitSegments s).filterMap compileSegment
      if patterns.length > 0 then patterns else DEFAULT_ALLOWED_DOMAINS

/-- `validateResponse` of `src/shared/security.js`.  The content length is
the numeric value of the `Content-Length` header when present.  The float
comparison `parseInt(contentLength) / (1024*1024) > maxFileSizeMB` is exact
for the representable sizes (division by a power of two), so it is modelled
by the equivalent integer comparison. -/
def validateResponse (status : Nat) (contentLength : Option Nat) (maxFileSizeMB : Nat) :
    ValidationResult :=
  if 300 ≤ status ∧ status < 400 then
    ⟨false, some ErrorMsg.redirectsNotSupported⟩
  else
    match contentLength with
    | some len =>
      if len > maxFileSizeMB * 1048576 then
        ⟨false, some (ErrorMsg.fileTooLarge len maxFileSizeMB)⟩
      else ⟨true, none⟩
    | none => ⟨true, none⟩

end Shared

namespace SelfSec

/-- `DEFAULT_ALLOWED_DOMAINS` of `src/self-hosted/security.ts` (it differs
from the shared list: a broader CloudFront pattern and generic cdn/data/
datasets/download patterns instead of the data.gov entries). -/
def DEFAULT_ALLOWED_DOMAINS : List DomainPattern :=
  [ Tok.dotStar :: lits ".s3.amazonaws.com",
    Tok.dotStar :: (lits ".s3." ++ [Tok.dotStar] ++ lits ".amazonaws.com"),
    lits "s3.amazonaws.com",
    lits "s3." ++ [Tok.dotStar] ++ lits ".amazonaws.com",
    Tok.dotStar :: lits ".cloudfront.net",
    Tok.dotStar :: lits ".github.io",
    Tok.dotStar :: lits ".githubusercontent.com",
    lits "raw.githubusercontent.com",
    lits "storage.googleapis.com",
    Tok.dotStar :: lits ".storage.googleapis.com",
    Tok.dotStar :: lits ".blob.core.windows.net",
    Tok.dotStar :: (lits ".cdn." ++ [Tok.dotStar]),
    lits "cdn." ++ [Tok.dotStar],
    lits "data." ++ [Tok.dotStar],
    lits "datasets." ++ [Tok.dotStar],
    lits "download." ++ [Tok.dotStar] ]

/-- Compilation of one segment in `src/self-hosted/security.ts`: only dots
are escaped and `*` becomes the dot-crossing `.*`.  This translation is
faithful for patterns built from alphanumerics, dots, hyphens and `*`
(patterns containing other regex metacharacters are outside the model, and
outside every theorem below). -/
def compilePattern (p : String) : DomainPattern :=
  p.data.map fun c => if c == '*' then Tok.dotStar else Tok.lit c

/-- `isAllowedDomain` of `src/self-hosted/security.ts` (same body as the
shared one: the hostname is lower-cased and tested against each
pattern). -/
def isAllowedDomain (hostname : String) (allowedDomains : List DomainPattern) : Bool :=
  allowedDomains.any fun pat => patMatch pat (lowerStr hostname).data

/-- `parseAllowedDomains` of `src/self-hosted/security.ts`: no complexity
validation and no fallback when every segment is filtered out. -/
def parseAllowedDomains (domainsString : Option String) : List DomainPattern :=
  match domainsString with
  | none => DEFAULT_ALLOWED_DOMAINS
  | some s =>
    if trimStr s = "" then DEFAULT_ALLOWED_DOMAINS
    else (splitSegments s).map compilePattern

end SelfSec

/-- Case-insensitive header lookup (`Headers.get` / Node's header access). -/
def headerGet (hs : List (String × String)) (name : String) : Option String :=
  (hs.find? (fun kv => lowerStr kv.1 == lowerStr name)).map Prod.snd

/-- `Headers.set` / `res.setHeader`: replace any existing header of that
name (case-insensitively) with the new value. -/
def headerSet (hs : List (String × String)) (name value : String) : List (String × String) :=
  (hs.filter (fun kv => lowerStr kv.1 != lowerStr name)) ++ [(name, value)]

/-- `res.removeHeader` for each name in `names` (names given lower-case). -/
def removeHeadersNamed (hs : List (String × String)) (names : List String) :
    List (String × String) :=
  hs.filter (fun kv => !(names.contains (lowerStr kv.1)))

namespace Worker

/-- The worker configuration produced by `getConfig` (worker.ts). -/
structure Config where
  allowedOrigins : List String
  allowedProtocols : List String
  maxFileSizeMB : Nat
  blockedDomains : List String
deriving Repr

/-- `DEFAULT_CONFIG` of worker.ts. -/
def defaultConfig : Config :=
  { allowedOrigins := ["https://app.pondpilot.io", "http://localhost:5173", "http://localhost:3000"],
    allowedProtocols := ["https:", "http:"],
    maxFileSizeMB := 500,
    blockedDomains := [] }

/-- The `url` query parameter as the worker sees it: absent, present but
rejected by `new URL`, or parsed. -/
inductive TargetParam where
  | missing
  | unparseable
  | parsed (u : ParsedUrl)
deriving Repr

/-- What the worker's upstream `fetch` produced: a thrown error, or a
response with its status, the numeric value of its `Content-Length` header
(if any), and its header list. -/
inductive FetchOutcome where
  | fetchFailed
  | response (status : Nat) (contentLength : Option Nat) (headers : List (String × String))
deriving Repr

/-- A response the worker returns to the client.  `upstreamBody` is true
exactly when the body is the upstream body streamed through (the final
`new Response(targetResponse.body, ...)`), false for the JSON error
bodies. -/
structure WorkerResponse where
  status : Nat
  headers : List (String × String)
  upstreamBody : Bool
deriving DecidableEq, Repr

/-- `corsError` of worker.ts.  Note `origin || '*'`: a `null` origin turns
into the literal `*` in `Access-Control-Allow-Origin`. -/
def corsError (origin : Option String) (status : Nat) : WorkerResponse :=
  { status := status,
    headers := [("Content-Type", "application/json"),
                ("Access-Control-Allow-Origin", origin.getD "*"),
                ("Access-Control-Allow-Methods", "GET, HEAD, OPTIONS")],
    upstreamBody := false }

/-- The `redirect` member of the worker's upstream fetch `RequestInit`: the
source omits the field, and the Fetch standard's default mode is
`follow`. -/
def fetchRedirectMode : String := "follow"

/-- The header rewriting on the worker's success path:
`new Headers(targetResponse.headers)` followed by the six `set` calls. -/
def successHeaders (origin : String) (upstream : List (String × String)) :
    List (String × String) :=
  headerSet (headerSet (headerSet (headerSet (headerSet (headerSet upstream
    "Access-Control-Allow-Origin" origin)
    "Access-Control-Allow-Methods" "GET, HEAD, OPTIONS")
    "Access-Control-Allow-Headers" "Content-Type, Range")
    "Access-Control-Expose-Headers" "Content-Length, Content-Range, Content-Type")
    "Cache-Control" "public, max-age=3600")
    "X-Proxy-By" "PondPilot-CORS-Proxy"

/-- `handleProxy` of worker.ts.  `rateLimitOk` is the rate limiter's verdict
(an external collaborator); `upstream` is what the single `fetch` call
produced and is only reached when all earlier checks pass. -/
def handleProxy (cfg : Config) (origin : Option String) (rateLimitOk : Bool)
    (target : TargetParam) (upstream : FetchOutcome) : WorkerResponse :=
  if (match origin with
      | none => true
      | some o => !(cfg.allowedOrigins.contains o)) = true then corsError origin 403
  else if rateLimitOk = false then corsError origin 429
  else
    match target with
    | TargetParam.missing => corsError origin 400
    | TargetParam.unparseable => corsError origin 400
    | TargetParam.parsed u =>
      if cfg.allowedProtocols.contains u.protocol = false then corsError origin 400
      else if cfg.blockedDomains.any (fun d => strEnds u.hostname d) = true then corsError origin 403
      else
        match upstream with
        | FetchOutcome.fetchFailed => corsError origin 502
        | FetchOutcome.response status contentLength hs =>
          match contentLength with
          | some len =>
            if len > cfg.maxFileSizeMB * 1048576 then corsError origin 413
            else { status := status,
                   headers := successHeaders (origin.getD "*") hs,
                   upstreamBody := true }
          | none => { status := status,
                      headers := successHeaders (origin.getD "*") hs,
                      upstreamBody := true }

end Worker

namespace Server

/-- The relevant part of the self-hosted server's process-wide `config`. -/
structure Config where
  allowedOrigins : List String
  allowedDomains : List DomainPattern
  allowedProtocols : List String
  httpsOnly : Bool
  maxFileSizeMB : Nat
deriving Repr

/-- The `internalHostPatterns` check of the path-segment handler
(server.ts lines 167-185), pattern by pattern; the patterns carrying an `i`
flag are tested on the lower-cased host. -/
def internalHostBlocked (host : String) : Bool :=
  lowerStr host = "localhost" ||
  strStarts host "127." ||
  strStarts host "10." ||
  Shared.PRIVATE_172_PREFIXES.any (fun p => strStarts host p) ||
  strStarts host "192.168." ||
  strStarts host "169.254." ||
  host = "::1" ||
  strStarts (lowerStr host) "fe80:" ||
  strStarts (lowerStr host) "fc00:" ||
  lowerStr host = "metadata.google.internal" ||
  host = "169.254.169.254"

/-- `path.replace(/\.\./g, '')`: remove every (non-overlapping, left to
right) occurrence of two consecutive dots. -/
def stripDotDot : List Char → List Char
  | '.' :: '.' :: rest => stripDotDot rest
  | c :: rest => c :: stripDotDot rest
  | [] => []

/-- `replace(/\/+/g, '/')`: collapse every run of slashes to a single
slash.  The flag records whether the previous kept character was part of a
slash run. -/
def collapseSlashesAux : List Char → Bool → List Char
  | [], _ => []
  | c :: rest, prevSlash =>
    if c == '/' then
      if prevSlash then collapseSlashesAux rest true
      else '/' :: collapseSlashesAux rest true
    else c :: collapseSlashesAux rest false

/-- `replace(/^\//, '')`: strip one leading slash. -/
def stripLeadingSlash : List Char → List Char
  | '/' :: rest => rest
  | l => l

/-- The path sanitization of the path-segment handler. -/
def sanitizePath (p : String) : String :=
  String.mk (stripLeadingSlash (collapseSlashesAux (stripDotDot p.data) false))

/-- The reconstructed target URL string
`protocol + '://' + host + '/' + sanitizedPath`. -/
def resolveTarget (protocol host path : String) : String :=
  String.mk (protocol.data ++ "://".data ++ host.data ++ "/".data ++ (sanitizePath path).data)

/-- The CORS headers the handler stages when the request's origin is present
and allowlisted (otherwise it stages none). -/
def corsHeadersFor (cfg : Config) (origin : Option String) : List (String × String) :=
  match origin with
  | some o =>
    if cfg.allowedOrigins.contains o then
      [("Access-Control-Allow-Origin", o),
       ("Access-Control-Allow-Methods", "GET, HEAD, OPTIONS"),
       ("Access-Control-Allow-Headers", "Content-Type, Range"),
       ("Access-Control-Expose-Headers",
        "Content-Length, Content-Range, Content-Type, Accept-Ranges, ETag, Last-Modified"),
       ("Vary", "Origin")]
    else []
  | none => []

/-- `headersToForward` of server.ts. -/
def headersToForward : List String :=
  ["content-type", "content-range", "content-length", "accept-ranges", "etag", "last-modified"]

/-- The upstream-header copying loop: for each allowlisted name, forward the
upstream value when present. -/
def forwardedHeaders (upstream : List (String × String)) : List (String × String) :=
  headersToForward.filterMap (fun name => (headerGet upstream name).map (fun v => (name, v)))

/-- The `redirect` member of the self-hosted upstream fetch: the source sets
it explicitly to `manual`. -/
def fetchRedirectMode : String := "manual"

/-- Result of one pass over the upstream body stream (chunks are byte
counts).  `overflowPreFlush` is the branch taken when the limit is hit
before anything was written; `overflowMidStream` when bytes were already
flushed. -/
inductive StreamResult where
  | completed (written : List Nat) (total : Nat)
  | overflowPreFlush (written : List Nat) (total : Nat) (rejectedChunk : Nat)
  | overflowMidStream (written : List Nat) (total : Nat)
deriving DecidableEq, Repr

/-- The streaming loop of the path-segment handler (server.ts lines
280-313): before forwarding a chunk, `transferred + value.byteLength` is
compared against `maxBytes`; an overflowing chunk is never written, and the
branch taken depends on `startedStreaming`. -/
def streamLoop (maxBytes : Nat) (transferred : Nat) (started : Bool)
    (written : List Nat) : List Nat → StreamResult
  | [] => StreamResult.completed written transferred
  | c :: rest =>
    if transferred + c > maxBytes then
      if started = false then StreamResult.overflowPreFlush written transferred c
      else StreamResult.overflowMidStream written transferred
    else streamLoop maxBytes (transferred + c) true (written ++ [c]) rest

/-- What the self-hosted fetch produced: a thrown error (network failure or
timeout abort), or a response with status, numeric `Content-Length` value,
headers, and body chunk sizes. -/
structure UpstreamResponse where
  status : Nat
  contentLength : Option Nat
  headers : List (String × String)
  chunks : List Nat
deriving Repr

/-- `fetch` outcome for the self-hosted handler. -/
inductive FetchResult where
  | failed
  | ok (r : UpstreamResponse)
deriving Repr

/-- The distinct error bodies of the path-segment handler. -/
inductive PathErr where
  | invalidProtocol
  | internalHost
  | validation (e : ErrorMsg)
  | fetchFail
  | badResponse (e : ErrorMsg)
  | tooLargeAbort
deriving DecidableEq, Repr

/-- How a path-segment handler invocation ends. -/
inductive RespKind where
  | errorJson (e : PathErr)
  | streamed (written : List Nat)
  | destroyed (written : List Nat)
deriving DecidableEq, Repr

/-- A response of the self-hosted handler: status, the headers the handler
itself staged (the `cors`/`helmet` middlewares are outside the model), and
the outcome kind. -/
structure ServerResponse where
  status : Nat
  headers : List (String × String)
  kind : RespKind
deriving DecidableEq, Repr

/-- The tail of the path-segment handler once validation passed: the staged
headers are set, the body is streamed under the byte ceiling, and on
overflow the response is either replaced by a clean 413 (upstream headers
removed, `Cache-Control: no-store`) when nothing was flushed yet, or the
connection is destroyed after a `Connection: close` attempt. -/
def streamStage (maxFileSizeMB : Nat) (status : Nat) (staged : List (String × String))
    (chunks : List Nat) : ServerResponse :=
  match streamLoop (maxFileSizeMB * 1048576) 0 false [] chunks with
  | StreamResult.completed written _ => ⟨status, staged, RespKind.streamed written⟩
  | StreamResult.overflowPreFlush _ _ _ =>
    ⟨413, headerSet (removeHeadersNamed staged headersToForward) "Cache-Control" "no-store",
     RespKind.errorJson PathErr.tooLargeAbort⟩
  | StreamResult.overflowMidStream written _ =>
    ⟨status, headerSet staged "Connection" "close", RespKind.destroyed written⟩

/-- The path-segment proxy handler of server.ts
(`app.get('/proxy-path/:protocol/:host/*')`).  `parseResult` is the outcome
of `new URL` on the reconstructed target; `fetched` is what the upstream
fetch produced and is only reached when validation passes. -/
def pathHandler (cfg : Config) (origin : Option String)
    (protocol host path : String) (parseResult : Option ParsedUrl)
    (fetched : FetchResult) : ServerResponse :=
  if (["http", "https"].contains (lowerStr protocol)) = false then
    ⟨400, [], RespKind.errorJson PathErr.invalidProtocol⟩
  else if internalHostBlocked host = true then
    ⟨403, [], RespKind.errorJson PathErr.internalHost⟩
  else
    let _targetUrl := resolveTarget protocol host path
    let cors := corsHeadersFor cfg origin
    match Shared.validateTargetUrl parseResult
        { allowedDomains := some cfg.allowedDomains,
          allowedProtocols := some cfg.allowedProtocols,
          httpsOnly := cfg.httpsOnly } with
    | ⟨false, e⟩ => ⟨403, cors, RespKind.errorJson (PathErr.validation (e.getD ErrorMsg.invalidUrlFormat))⟩
    | ⟨true, _⟩ =>
      match fetched with
      | FetchResult.failed => ⟨502, cors, RespKind.errorJson PathErr.fetchFail⟩
      | FetchResult.ok r =>
        match Shared.validateResponse r.status r.contentLength cfg.maxFileSizeMB with
        | ⟨false, e⟩ => ⟨400, cors, RespKind.errorJson (PathErr.badResponse (e.getD ErrorMsg.invalidUrlFormat))⟩
        | ⟨true, _⟩ =>
          streamStage cfg.maxFileSizeMB r.status
            (cors ++ forwardedHeaders r.headers ++
              [("X-Proxy-By", "PondPilot-CORS-Proxy"), ("Cache-Control", "public, max-age=3600")])
            r.chunks

end Server

/-! ### Specification-side definitions

The following definitions transcribe the wording of the specification and of
the claims (not the source); they exist to be compared with the definitions
above. -/

/-- The five checks of the URL Validator in the order the specification
states them (parse, protocol membership, https-only, SSRF guard, domain
allowlist); `none` is a pass.  Checks after a parse failure are never
reached by the short-circuiting contract, so they are recorded as passes
there. -/
def urlChecks (target : Option ParsedUrl) (config : SecurityConfig) : List (Option ErrorMsg) :=
  [ (match target with
     | none => some ErrorMsg.invalidUrlFormat
     | some _ => none),
    (match target with
     | none => none
     | some u =>
       if (config.allowedProtocols.getD ["https:", "http:"]).contains u.protocol = false then
         some (ErrorMsg.protocolNotAllowed u.protocol (config.allowedProtocols.getD ["https:", "http:"]))
       else none),
    (match target with
     | none => none
     | some u =>
       if (config.httpsOnly && u.protocol != "https:") = true then some ErrorMsg.httpsOnlyMsg
       else none),
    (match target with
     | none => none
     | some u =>
       if Shared.isPrivateIP u.hostname = true then some ErrorMsg.privateAddress else none),
    (match target with
     | none => none
     | some u =>
       if Shared.isAllowedDomain u.hostname (config.allowedDomains.getD Shared.DEFAULT_ALLOWED_DOMAINS) = false then
         some (ErrorMsg.notInAllowlist u.hostname)
       else none) ]

/-- Short-circuiting evaluation of a check list: the result is the error of
the earliest failing check, and valid only when every check passes. -/
def applyChecks (l : List (Option ErrorMsg)) : ValidationResult :=
  match l.findSome? id with
  | some e => ⟨false, some e⟩
  | none => ⟨true, none⟩

/-- Modelled from the spec: the fixed denylist of upstream response headers
that must never be forwarded to the client (Set-Cookie and variants,
Content-Security-Policy, X-Frame-Options, Referrer-Policy, and the
hop-by-hop headers), in lower case. -/
def deniedUpstreamHeaders : List String :=
  ["set-cookie", "set-cookie2", "content-security-policy",
   "content-security-policy-report-only", "x-frame-options", "referrer-policy",
   "connection", "keep-alive", "transfer-encoding", "upgrade",
   "proxy-authenticate", "proxy-connection", "te", "trailer"]

/-- A pattern character that is not a regex metacharacter for either
compiler and not a wildcard: the alphanumerics, dot and hyphen of ordinary
hostname patterns. -/
def plainHostChar (c : Char) : Bool := c.isAlphanum || c == '.' || c == '-'

/-- Chunks actually forwarded by a streaming run. -/
def Server.StreamResult.written : Server.StreamResult → List Nat
  | Server.StreamResult.completed w _ => w
  | Server.StreamResult.overflowPreFlush w _ _ => w
  | Server.StreamResult.overflowMidStream w _ => w

/-- Final byte counter of a streaming run. -/
def Server.StreamResult.total : Server.StreamResult → Nat
  | Server.StreamResult.completed _ t => t
  | Server.StreamResult.overflowPreFlush _ t _ => t
  | Server.StreamResult.overflowMidStream _ t => t

/-- The successive values of the byte counter along a streaming run that
forwarded exactly the chunks `w`: the partial sums of `w` starting at 0. -/
def runningTotals (w : List Nat) : List Nat := List.scanl (fun a b => a + b) 0 w

/-! ### Helper lemmas about header lists -/

theorem headerGet_cons (a : String × String) (hs : List (String × String)) (n : String) :
    headerGet (a :: hs) n =
      if lowerStr a.1 == lowerStr n then some a.2 else headerGet hs n := by
  unfold headerGet
  by_cases h : (lowerStr a.1 == lowerStr n) = true
  · rw [List.find?_cons_of_pos (p := fun kv : String × String => lowerStr kv.1 == lowerStr n) _ h, if_pos h]
    rfl
  · rw [List.find?_cons_of_neg (p := fun kv : String × String => lowerStr kv.1 == lowerStr n) _ h, if_neg h]

theorem headerGet_eq_none (hs : List (String × String)) (d : String)
    (h : ∀ kv ∈ hs, (lowerStr kv.1 == lowerStr d) = false) :
    headerGet hs d = none := by
  induction hs with
  | nil => rfl
  | cons a t ih =>
    rw [headerGet_cons, h a (List.mem_cons_self a t), if_neg (by simp)]
    exact ih fun kv hkv => h kv (List.mem_cons_of_mem a hkv)

theorem headerGet_append (l1 l2 : List (String × String)) (n : String) :
    headerGet (l1 ++ l2) n =
      match headerGet l1 n with
      | some v => some v
      | none => headerGet l2 n := by
  induction l1 with
  | nil => rfl
  | cons a t ih =>
    rw [List.cons_append, headerGet_cons, headerGet_cons]
    by_cases h : (lowerStr a.1 == lowerStr n) = true
    · simp [h]
    · simp only [Bool.not_eq_true] at h
      simp [h, ih]

theorem headerGet_filter_ne (hs : List (String × String)) (n m : String)
    (h : lowerStr m ≠ lowerStr n) :
    headerGet (hs.filter (fun kv => lowerStr kv.1 != lowerStr n)) m = headerGet hs m := by
  induction hs with
  | nil => rfl
  | cons a t ih =>
    by_cases ha : (lowerStr a.1 != lowerStr n) = true
    · rw [List.filter_cons_of_pos (by simpa using ha), headerGet_cons, headerGet_cons, ih]
    · have ha' : lowerStr a.1 = lowerStr n := by simpa using ha
      rw [List.filter_cons_of_neg (by simpa using ha), headerGet_cons,
        if_neg (by simp only [ha', beq_iff_eq]; exact Ne.symm h), ih]

theorem headerGet_set_eq (hs : List (String × String)) (n m v : String)
    (h : lowerStr m = lowerStr n) :
    headerGet (headerSet hs n v) m = some v := by
  unfold headerSet
  rw [headerGet_append]
  rw [headerGet_eq_none]
  · rw [headerGet_cons]
    simp [h]
  · intro kv hkv
    have := List.of_mem_filter hkv
    simp only [bne_iff_ne, ne_eq, decide_not] at this ⊢
    simp only [h]
    simpa using this

theorem headerGet_set_ne (hs : List (String × String)) (n m v : String)
    (h : lowerStr m ≠ lowerStr n) :
    headerGet (headerSet hs n v) m = headerGet hs m := by
  unfold headerSet
  rw [headerGet_append, headerGet_filter_ne hs n m h]
  cases hg : headerGet hs m with
  | some v => rfl
  | none =>
    rw [headerGet_cons, if_neg (by simp only [beq_iff_eq]; exact Ne.symm h), headerGet_eq_none]
    intro kv hkv
    simp at hkv

theorem headerGet_remove_of_mem (hs : List (String × String)) (names : List String) (n : String)
    (hn : names.contains (lowerStr n) = true) :
    headerGet (removeHeadersNamed hs names) n = none := by
  apply headerGet_eq_none
  intro kv hkv
  have hsurv := List.of_mem_filter hkv
  simp only [Bool.not_eq_true'] at hsurv
  by_contra hc
  simp only [Bool.not_eq_false, beq_iff_eq] at hc
  rw [hc] at hsurv
  rw [hsurv] at hn
  exact Bool.false_ne_true hn

theorem headerGet_eq_none_of_names (hs : List (String × String)) (names : List String) (d : String)
    (hnames : ∀ kv ∈ hs, kv.1 ∈ names)
    (hdisj : ∀ n ∈ names, (lowerStr n == lowerStr d) = false) :
    headerGet hs d = none :=
  headerGet_eq_none hs d fun kv hkv => hdisj kv.1 (hnames kv hkv)

/-! ### Claim theorems -/

/-- C1: the claim states that both front ends fetch upstream with
redirect-following disabled and hand any 3xx to the Response Validator.
The self-hosted path handler does (`redirect: 'manual'`, then
`validateResponse` rejects the 301 with a 400), but the worker's fetch omits
the `redirect` member (defaulting to follow) and forwards a raw 301 upstream
response to the client unchanged, never rejecting it. -/
theorem c1_worker_forwards_redirects_selfhosted_rejects :
    Worker.fetchRedirectMode = "follow" ∧
    Worker.handleProxy Worker.defaultConfig (some "https://app.pondpilot.io") true
        (Worker.TargetParam.parsed ⟨"https:", "bucket.s3.amazonaws.com"⟩)
        (Worker.FetchOutcome.response 301 none
          [("Location", "http://169.254.169.254/latest/meta-data/")]) =
      { status := 301,
        headers := Worker.successHeaders "https://app.pondpilot.io"
          [("Location", "http://169.254.169.254/latest/meta-data/")],
        upstreamBody := true } ∧
    Server.fetchRedirectMode = "manual" ∧
    Server.pathHandler
        ⟨["https://app.pondpilot.io"], [lits "bucket.s3.amazonaws.com"], ["https:"], true, 500⟩
        (some "https://app.pondpilot.io") "https" "bucket.s3.amazonaws.com" "file.csv"
        (some ⟨"https:", "bucket.s3.amazonaws.com"⟩)
        (Server.FetchResult.ok ⟨301, none, [("Location", "http://169.254.169.254/x")], []⟩) =
      ⟨400,
        Server.corsHeadersFor
          ⟨["https://app.pondpilot.io"], [lits "bucket.s3.amazonaws.com"], ["https:"], true, 500⟩
          (some "https://app.pondpilot.io"),
        Server.RespKind.errorJson (Server.PathErr.badResponse ErrorMsg.redirectsNotSupported)⟩ := by
  refine ⟨rfl, by decide, rfl, by decide⟩

/-- C3 counterexample: the self-hosted compiler also produces matchers from
domain patterns, and its compiled `*.example.com` does match
`a.b.example.com`, contradicting the claim as stated over every compiled
matcher. -/
theorem c3_selfhosted_wildcard_crosses_dots :
    patMatch (SelfSec.compilePattern "*.example.com") "a.b.example.com".data = true := by
  decide

/-- C3 (amended): for the shared compiler — the one both servers import —
`*` matches only a run of non-dot characters and matching is
case-insensitive: `*.example.com` matches `api.example.com` and
`test.example.com` but not `a.b.example.com`, and `example.com` matches
exactly `example.com` and `EXAMPLE.COM` but not `sub.example.com`. -/
theorem c3_shared_wildcard_single_label :
    patMatch (Shared.compilePattern "*.example.com") "api.example.com".data = true ∧
    patMatch (Shared.compilePattern "*.example.com") "test.example.com".data = true ∧
    patMatch (Shared.compilePattern "*.example.com") "a.b.example.com".data = false ∧
    patMatch (Shared.compilePattern "example.com") "example.com".data = true ∧
    patMatch (Shared.compilePattern "example.com") "EXAMPLE.COM".data = true ∧
    patMatch (Shared.compilePattern "example.com") "sub.example.com".data = false := by
  decide

/-- C8: `validateResponse` rejects every status in `[300,400)` regardless of
the declared content length; outside that range it rejects a declared
content length exceeding the limit with an error carrying both sizes, and
accepts when no content length is declared. -/
theorem c8_validate_response_contract :
    (∀ (status : Nat) (cl : Option Nat) (maxMB : Nat),
      300 ≤ status → status < 400 →
      Shared.validateResponse status cl maxMB = ⟨false, some ErrorMsg.redirectsNotSupported⟩) ∧
    (∀ (status len maxMB : Nat),
      ¬ (300 ≤ status ∧ status < 400) → len > maxMB * 1048576 →
      Shared.validateResponse status (some len) maxMB =
        ⟨false, some (ErrorMsg.fileTooLarge len maxMB)⟩) ∧
    (∀ (status maxMB : Nat),
      ¬ (300 ≤ status ∧ status < 400) →
      Shared.validateResponse status none maxMB = ⟨true, none⟩) := by
  refine ⟨fun status cl maxMB h1 h2 => ?_, fun status len maxMB h1 h2 => ?_,
    fun status maxMB h1 => ?_⟩
  · unfold Shared.validateResponse
    rw [if_pos ⟨h1, h2⟩]
  · unfold Shared.validateResponse
    rw [if_neg h1]
    simp only
    rw [if_pos h2]
  · unfold Shared.validateResponse
    rw [if_neg h1]

/-- C8 witness: the contract applied at status 301, at a 6-million-byte
declared length against a 5 MB limit, and at an absent content length. -/
theorem c8_validate_response_contract_witness :
    Shared.validateResponse 301 (some 7) 5 = ⟨false, some ErrorMsg.redirectsNotSupported⟩ ∧
    Shared.validateResponse 200 (some 6000000) 5 =
      ⟨false, some (ErrorMsg.fileTooLarge 6000000 5)⟩ ∧
    Shared.validateResponse 200 none 5 = ⟨true, none⟩ :=
  ⟨c8_validate_response_contract.1 301 (some 7) 5 (by decide) (by decide),
   c8_validate_response_contract.2.1 200 6000000 5 (by decide) (by decide),
   c8_validate_response_contract.2.2 200 5 (by decide)⟩

/-- C10 counterexample: on the configuration string `*.example.com` the two
`parseAllowedDomains` implementations accept different hostname sets —
`a.b.example.com` is rejected by the shared matchers and accepted by the
self-hosted ones. -/
theorem c10_parsers_disagree_on_wildcard :
    Shared.isAllowedDomain "a.b.example.com"
      (Shared.parseAllowedDomains (some "*.example.com")) = false ∧
    SelfSec.isAllowedDomain "a.b.example.com"
      (SelfSec.parseAllowedDomains (some "*.example.com")) = true := by
  refine ⟨by decide, by decide⟩

/-- C2: for every hostname the SSRF guard classifies as private/blocked,
`validateTargetUrl` returns the generic private/internal-address error for
every allowlist whatsoever (provided the URL reaches the SSRF check, i.e.
its protocol passes the earlier checks); in particular the six hostnames
named by the claim are rejected over `https:` for every allowlist and every
`httpsOnly` setting. -/
theorem c2_private_hosts_rejected_regardless_of_allowlist :
    (∀ (ad : Option (List DomainPattern)) (protos : Option (List String)) (ho : Bool)
       (u : ParsedUrl),
      Shared.isPrivateIP u.hostname = true →
      (protos.getD ["https:", "http:"]).contains u.protocol = true →
      (ho = true → u.protocol = "https:") →
      Shared.validateTargetUrl (some u) ⟨ad, protos, ho⟩ =
        ⟨false, some ErrorMsg.privateAddress⟩) ∧
    (∀ (ad : Option (List DomainPattern)) (ho : Bool),
      ∀ h ∈ (["127.0.0.1", "169.254.169.254", "localhost", "metadata.google.internal",
              "::1", "fc00::1"] : List String),
      Shared.validateTargetUrl (some ⟨"https:", h⟩) ⟨ad, none, ho⟩ =
        ⟨false, some ErrorMsg.privateAddress⟩) := by
  have main : ∀ (ad : Option (List DomainPattern)) (protos : Option (List String)) (ho : Bool)
      (u : ParsedUrl),
      Shared.isPrivateIP u.hostname = true →
      (protos.getD ["https:", "http:"]).contains u.protocol = true →
      (ho = true → u.protocol = "https:") →
      Shared.validateTargetUrl (some u) ⟨ad, protos, ho⟩ =
        ⟨false, some ErrorMsg.privateAddress⟩ := by
    intro ad protos ho u hpriv hproto hhttps
    cases ho with
    | false =>
      simp only [Shared.validateTargetUrl]
      rw [hproto, hpriv]
      simp
    | true =>
      have hp := hhttps rfl
      simp only [Shared.validateTargetUrl]
      rw [hproto, hpriv, hp]
      simp
  refine ⟨main, ?_⟩
  intro ad ho h hmem
  fin_cases hmem <;>
    exact main ad none ho ⟨"https:", _⟩ (by decide) (by decide) (fun _ => rfl)

/-- C2 witness: the general statement applied to hostname `10.1.2.3` with an
allowlist whose only pattern matches everything, and to `169.254.169.254`
with an allowlist naming it literally. -/
theorem c2_private_hosts_rejected_witness :
    Shared.validateTargetUrl (some ⟨"https:", "10.1.2.3"⟩)
      ⟨some [[Tok.dotStar]], some ["https:"], true⟩ =
      ⟨false, some ErrorMsg.privateAddress⟩ ∧
    Shared.validateTargetUrl (some ⟨"https:", "169.254.169.254"⟩)
      ⟨some [lits "169.254.169.254"], none, false⟩ =
      ⟨false, some ErrorMsg.privateAddress⟩ :=
  ⟨c2_private_hosts_rejected_regardless_of_allowlist.1 (some [[Tok.dotStar]]) (some ["https:"])
      true ⟨"https:", "10.1.2.3"⟩ (by decide) (by decide) (fun _ => rfl),
   c2_private_hosts_rejected_regardless_of_allowlist.2 (some [lits "169.254.169.254"]) false
      "169.254.169.254" (by decide)⟩

/-- C5: `validateTargetUrl` is exactly the short-circuiting evaluation of
the five specification checks in order (parse, protocol, https-only, SSRF
guard, allowlist): the result is invalid with the error of the earliest
failing check, and valid exactly when all five pass. -/
theorem c5_validate_url_is_ordered_checks :
    ∀ (target : Option ParsedUrl) (config : SecurityConfig),
      Shared.validateTargetUrl target config = applyChecks (urlChecks target config) := by
  intro target config
  cases target with
  | none => rfl
  | some u =>
    cases h1 : (config.allowedProtocols.getD ["https:", "http:"]).contains u.protocol with
    | false =>
      simp only [Shared.validateTargetUrl, urlChecks, applyChecks, List.findSome?, id]
      rw [h1]
      simp
    | true =>
      cases h2 : (config.httpsOnly && u.protocol != "https:") with
      | true =>
        simp only [Shared.validateTargetUrl, urlChecks, applyChecks, List.findSome?, id]
        rw [h1, h2]
        simp
      | false =>
        cases h3 : Shared.isPrivateIP u.hostname with
        | true =>
          simp only [Shared.validateTargetUrl, urlChecks, applyChecks, List.findSome?, id]
          rw [h1, h2, h3]
          simp
        | false =>
          cases h4 : Shared.isAllowedDomain u.hostname
              (config.allowedDomains.getD Shared.DEFAULT_ALLOWED_DOMAINS) with
          | false =>
            simp only [Shared.validateTargetUrl, urlChecks, applyChecks, List.findSome?, id]
            rw [h1, h2, h3, h4]
            simp
          | true =>
            simp only [Shared.validateTargetUrl, urlChecks, applyChecks, List.findSome?, id]
            rw [h1, h2, h3, h4]
            simp

/-- C6: `parseAllowedDomains` (shared) never yields an empty matcher set:
an undefined or blank input yields the default set; a segment longer than
100 characters or with more than 3 wildcards is dropped by compilation; if
no segment survives, the default set is returned, and otherwise exactly the
surviving segments are returned. -/
theorem c6_parse_allowed_domains_contract :
    Shared.parseAllowedDomains none = Shared.DEFAULT_ALLOWED_DOMAINS ∧
    (∀ s : String, trimStr s = "" →
      Shared.parseAllowedDomains (some s) = Shared.DEFAULT_ALLOWED_DOMAINS) ∧
    (∀ p : String, 100 < p.length ∨ 3 < Shared.wildcardCount p →
      Shared.compileSegment p = none) ∧
    (∀ s : String, trimStr s ≠ "" →
      (splitSegments s).filterMap Shared.compileSegment = [] →
      Shared.parseAllowedDomains (some s) = Shared.DEFAULT_ALLOWED_DOMAINS) ∧
    (∀ s : String, trimStr s ≠ "" →
      (splitSegments s).filterMap Shared.compileSegment ≠ [] →
      Shared.parseAllowedDomains (some s) = (splitSegments s).filterMap Shared.compileSegment) ∧
    (∀ s : Option String, Shared.parseAllowedDomains s ≠ []) := by
  refine ⟨rfl, ?_, ?_, ?_, ?_, ?_⟩
  · intro s h
    simp only [Shared.parseAllowedDomains]
    rw [if_pos h]
  · intro p h
    rcases h with h | h
    · simp [Shared.compileSegment, Shared.validatePatternComplexity, h]
    · simp [Shared.compileSegment, Shared.validatePatternComplexity, h]
  · intro s h1 h2
    simp only [Shared.parseAllowedDomains]
    rw [if_neg h1, if_neg (by rw [h2]; simp)]
  · intro s h1 h2
    simp only [Shared.parseAllowedDomains]
    rw [if_neg h1, if_pos (List.length_pos.mpr h2)]
  · intro s
    cases s with
    | none => decide
    | some s =>
      simp only [Shared.parseAllowedDomains]
      by_cases h : trimStr s = ""
      · rw [if_pos h]
        decide
      · rw [if_neg h]
        by_cases h2 : (splitSegments s).filterMap Shared.compileSegment = []
        · rw [if_neg (by rw [h2]; simp)]
          decide
        · rw [if_pos (List.length_pos.mpr h2)]
          exact h2

/-- C6 witness: blank input yields the defaults; a 101-character segment and
a 4-wildcard segment are dropped; `****` (all segments dropped) falls back
to the defaults; `example.com` survives alone; and a lone comma still
yields a non-empty set. -/
theorem c6_parse_allowed_domains_witness :
    Shared.parseAllowedDomains (some "   ") = Shared.DEFAULT_ALLOWED_DOMAINS ∧
    Shared.compileSegment (String.mk (List.replicate 101 'a')) = none ∧
    Shared.compileSegment "*a*b*c*d" = none ∧
    Shared.parseAllowedDomains (some "****") = Shared.DEFAULT_ALLOWED_DOMAINS ∧
    Shared.parseAllowedDomains (some "example.com") = [Shared.compilePattern "example.com"] ∧
    Shared.parseAllowedDomains (some ",") ≠ [] :=
  ⟨c6_parse_allowed_domains_contract.2.1 "   " (by decide),
   c6_parse_allowed_domains_contract.2.2.1 (String.mk (List.replicate 101 'a'))
     (Or.inl (by decide)),
   c6_parse_allowed_domains_contract.2.2.1 "*a*b*c*d" (Or.inr (by decide)),
   c6_parse_allowed_domains_contract.2.2.2.1 "****" (by decide) (by decide),
   (c6_parse_allowed_domains_contract.2.2.2.2.1 "example.com" (by decide) (by decide)).trans
     (by decide),
   c6_parse_allowed_domains_contract.2.2.2.2.2 (some ",")⟩

/-- The byte counter only grows along a run: the partial sums starting from
any value form a nondecreasing chain. -/
theorem scanl_add_chain :
    ∀ (w : List Nat) (a : Nat), List.Chain' (· ≤ ·) (List.scanl (fun x y => x + y) a w) := by
  intro w
  induction w with
  | nil => intro a; simp [List.scanl]
  | cons c rest ih =>
    intro a
    rw [List.scanl]
    refine List.chain'_cons'.mpr ⟨?_, ih (a + c)⟩
    intro y hy
    rcases rest with _ | ⟨d, rest2⟩ <;> simp [List.scanl] at hy <;> omega

/-- Invariant of the streaming loop, for every starting state: the final
counter is the sum of the forwarded chunks and never exceeds the ceiling,
the forwarded chunks extend the already-written ones by a prefix of the
remaining chunks, and the pre-flush overflow branch is taken exactly in the
not-yet-started state with the rejected chunk unwritten. -/
theorem streamLoop_invariant (maxBytes : Nat) :
    ∀ (chunks : List Nat) (t : Nat) (st : Bool) (w : List Nat),
      w.sum = t → t ≤ maxBytes →
      ((Server.streamLoop maxBytes t st w chunks).written.sum =
          (Server.streamLoop maxBytes t st w chunks).total ∧
       (Server.streamLoop maxBytes t st w chunks).total ≤ maxBytes ∧
       (∃ u, (Server.streamLoop maxBytes t st w chunks).written = w ++ u ∧ u <+: chunks) ∧
       (∀ w' t' c, Server.streamLoop maxBytes t st w chunks =
          Server.StreamResult.overflowPreFlush w' t' c →
          w' = w ∧ t' = t ∧ st = false ∧ maxBytes < t + c)) := by
  intro chunks
  induction chunks with
  | nil =>
    intro t st w hw ht
    refine ⟨by simpa [Server.streamLoop, Server.StreamResult.written,
        Server.StreamResult.total] using hw,
      by simpa [Server.streamLoop, Server.StreamResult.total] using ht,
      ⟨[], by simp [Server.streamLoop, Server.StreamResult.written], List.nil_prefix⟩, ?_⟩
    intro w' t' c h
    simp [Server.streamLoop] at h
  | cons c rest ih =>
    intro t st w hw ht
    by_cases hov : t + c > maxBytes
    · have hval : Server.streamLoop maxBytes t st w (c :: rest) =
          if st = false then Server.StreamResult.overflowPreFlush w t c
          else Server.StreamResult.overflowMidStream w t := by
        simp only [Server.streamLoop]
        rw [if_pos hov]
      cases st with
      | false =>
        rw [if_pos rfl] at hval
        rw [hval]
        refine ⟨by simpa [Server.StreamResult.written, Server.StreamResult.total] using hw,
          by simpa [Server.StreamResult.total] using ht,
          ⟨[], by simp [Server.StreamResult.written], List.nil_prefix⟩, ?_⟩
        intro w' t' c' h
        injection h with h1 h2 h3
        exact ⟨h1.symm, h2.symm, rfl, by omega⟩
      | true =>
        rw [if_neg (by simp)] at hval
        rw [hval]
        refine ⟨by simpa [Server.StreamResult.written, Server.StreamResult.total] using hw,
          by simpa [Server.StreamResult.total] using ht,
          ⟨[], by simp [Server.StreamResult.written], List.nil_prefix⟩, ?_⟩
        intro w' t' c' h
        exact absurd h (by simp)
    · have hval : Server.streamLoop maxBytes t st w (c :: rest) =
          Server.streamLoop maxBytes (t + c) true (w ++ [c]) rest := by
        simp only [Server.streamLoop]
        rw [if_neg hov]
      rw [hval]
      have hrec := ih (t + c) true (w ++ [c]) (by simp [hw]) (by omega)
      refine ⟨hrec.1, hrec.2.1, ?_, ?_⟩
      · obtain ⟨u, hu, hpre⟩ := hrec.2.2.1
        refine ⟨c :: u, by simpa using hu, ?_⟩
        obtain ⟨v, hv⟩ := hpre
        exact ⟨v, by simp [hv]⟩
      · intro w' t' c' h
        obtain ⟨_, _, hst, _⟩ := hrec.2.2.2 w' t' c' h
        exact absurd hst (by simp)

/-- Filtering with a predicate that keeps every entry matching `n` does not
change a lookup of `n`. -/
theorem headerGet_filter_keep (hs : List (String × String)) (q : String × String → Bool)
    (n : String) (hkeep : ∀ kv, (lowerStr kv.1 == lowerStr n) = true → q kv = true) :
    headerGet (hs.filter q) n = headerGet hs n := by
  induction hs with
  | nil => rfl
  | cons a t ih =>
    by_cases hq : q a = true
    · rw [List.filter_cons_of_pos hq, headerGet_cons, headerGet_cons, ih]
    · have hm : (lowerStr a.1 == lowerStr n) = false := by
        by_contra hc
        simp only [Bool.not_eq_false] at hc
        exact hq (hkeep a hc)
      rw [List.filter_cons_of_neg hq, headerGet_cons, if_neg (by simp [hm]), ih]

/-- Removing headers whose names avoid `n` leaves a lookup of `n` alone. -/
theorem headerGet_remove_of_not_mem (hs : List (String × String)) (names : List String)
    (n : String) (hn : names.contains (lowerStr n) = false) :
    headerGet (removeHeadersNamed hs names) n = headerGet hs n := by
  apply headerGet_filter_keep
  intro kv hkv
  have : lowerStr kv.1 = lowerStr n := by simpa using hkv
  rw [this, hn]
  rfl

/-- Every header the self-hosted handler copies from upstream carries one of
the six allowlisted names. -/
theorem forwardedHeaders_names (up : List (String × String)) :
    ∀ kv ∈ Server.forwardedHeaders up, kv.1 ∈ Server.headersToForward := by
  intro kv hkv
  obtain ⟨nm, hnm, hmap⟩ := List.mem_filterMap.mp hkv
  rcases hget : headerGet up nm with _ | v
  · rw [hget] at hmap
    simp at hmap
  · rw [hget] at hmap
    simp only [Option.map_some', Option.some.injEq] at hmap
    rw [← hmap]
    exact hnm

/-- The handler-staged CORS headers use only the five CORS names. -/
theorem corsHeadersFor_names (cfg : Server.Config) (origin : Option String) :
    ∀ kv ∈ Server.corsHeadersFor cfg origin,
      kv.1 ∈ ["Access-Control-Allow-Origin", "Access-Control-Allow-Methods",
        "Access-Control-Allow-Headers", "Access-Control-Expose-Headers", "Vary"] := by
  intro kv hkv
  cases origin with
  | none => simp [Server.corsHeadersFor] at hkv
  | some o =>
    simp only [Server.corsHeadersFor] at hkv
    by_cases h : cfg.allowedOrigins.contains o = true
    · rw [if_pos h] at hkv
      fin_cases hkv <;> simp
    · rw [if_neg h] at hkv
      simp at hkv

/-- No denylisted upstream header name survives into the headers the
self-hosted handler stages for a successful stream. -/
theorem staged_headers_denied_none (cfg : Server.Config) (origin : Option String)
    (up : List (String × String)) (d : String) (hd : d ∈ deniedUpstreamHeaders) :
    headerGet (Server.corsHeadersFor cfg origin ++ Server.forwardedHeaders up ++
      [("X-Proxy-By", "PondPilot-CORS-Proxy"), ("Cache-Control", "public, max-age=3600")]) d =
      none := by
  apply headerGet_eq_none_of_names _
    (["Access-Control-Allow-Origin", "Access-Control-Allow-Methods",
      "Access-Control-Allow-Headers", "Access-Control-Expose-Headers", "Vary"] ++
     Server.headersToForward ++ ["X-Proxy-By", "Cache-Control"]) d
  · intro kv hkv
    rcases List.mem_append.mp hkv with hkv | hkv
    · rcases List.mem_append.mp hkv with hkv | hkv
      · exact List.mem_append.mpr (Or.inl (List.mem_append.mpr
          (Or.inl (corsHeadersFor_names cfg origin kv hkv))))
      · exact List.mem_append.mpr (Or.inl (List.mem_append.mpr
          (Or.inr (forwardedHeaders_names up kv hkv))))
    · fin_cases hkv <;> simp
  · fin_cases hd <;> decide

/-- A handler-staged `Access-Control-Allow-Origin` value can only be the
request's own origin. -/
theorem corsHeadersFor_acao (cfg : Server.Config) (origin : Option String) (v : String)
    (h : headerGet (Server.corsHeadersFor cfg origin) "access-control-allow-origin" = some v) :
    origin = some v := by
  cases origin with
  | none => simp [Server.corsHeadersFor, headerGet] at h
  | some o =>
    simp only [Server.corsHeadersFor] at h
    by_cases hc : cfg.allowedOrigins.contains o = true
    · rw [if_pos hc, headerGet_cons] at h
      rw [if_pos (show (lowerStr ("Access-Control-Allow-Origin", o).1 ==
        lowerStr "access-control-allow-origin") = true from rfl)] at h
      injection h with h
      change o = v at h
      rw [h]
    · rw [if_neg hc] at h
      simp [headerGet] at h

/-- Same property for the whole staged header list of a streamed
response. -/
theorem staged_headers_acao (cfg : Server.Config) (origin : Option String)
    (up : List (String × String)) (v : String)
    (h : headerGet (Server.corsHeadersFor cfg origin ++ Server.forwardedHeaders up ++
      [("X-Proxy-By", "PondPilot-CORS-Proxy"), ("Cache-Control", "public, max-age=3600")])
      "access-control-allow-origin" = some v) :
    origin = some v := by
  rw [headerGet_append, headerGet_append] at h
  cases h1 : headerGet (Server.corsHeadersFor cfg origin) "access-control-allow-origin" with
  | some w =>
    rw [h1] at h
    simp only at h
    injection h with h
    rw [← h]
    exact corsHeadersFor_acao cfg origin w h1
  | none =>
    rw [h1] at h
    simp only at h
    rw [headerGet_eq_none_of_names _ Server.headersToForward _
      (forwardedHeaders_names up) (by decide)] at h
    simp only at h
    rw [show headerGet [("X-Proxy-By", "PondPilot-CORS-Proxy"),
      ("Cache-Control", "public, max-age=3600")] "access-control-allow-origin" = none from by decide] at h
    exact absurd h (by simp)

/-- C9 counterexample: a request without an Origin header gets a worker
error response whose `Access-Control-Allow-Origin` is the literal `*`
(`corsError` falls back to `origin || '*'`). -/
theorem c9_worker_emits_star_without_origin :
    headerGet (Worker.handleProxy Worker.defaultConfig none true
      Worker.TargetParam.missing Worker.FetchOutcome.fetchFailed).headers
      "access-control-allow-origin" = some "*" := by
  decide

/-- C9 (amended): whenever the request carries an Origin header the worker
echoes exactly that origin in `Access-Control-Allow-Origin` (even on error
responses), and the self-hosted path handler only ever stages the request's
own origin there; the literal `*` appears only in worker error responses to
requests without an Origin header. -/
theorem c9_acao_echoes_request_origin :
    (∀ (cfg : Worker.Config) (o : String) (rl : Bool) (target : Worker.TargetParam)
       (upstream : Worker.FetchOutcome),
      headerGet (Worker.handleProxy cfg (some o) rl target upstream).headers
        "access-control-allow-origin" = some o) ∧
    (∀ (cfg : Server.Config) (origin : Option String) (protocol host path : String)
       (pr : Option ParsedUrl) (fetched : Server.FetchResult) (v : String),
      headerGet (Server.pathHandler cfg origin protocol host path pr fetched).headers
        "access-control-allow-origin" = some v →
      origin = some v) := by
  have hcors : ∀ (o : String) (st : Nat),
      headerGet (Worker.corsError (some o) st).headers "access-control-allow-origin" =
        some o := by
    intro o st
    show headerGet [("Content-Type", "application/json"),
      ("Access-Control-Allow-Origin", o), ("Access-Control-Allow-Methods", "GET, HEAD, OPTIONS")]
      "access-control-allow-origin" = some o
    rw [headerGet_cons, if_neg (by decide), headerGet_cons]
    rw [if_pos (show (lowerStr ("Access-Control-Allow-Origin", o).1 ==
      lowerStr "access-control-allow-origin") = true from rfl)]
  have hsucc : ∀ (o : String) (hs : List (String × String)),
      headerGet (Worker.successHeaders o hs) "access-control-allow-origin" = some o := by
    intro o hs
    unfold Worker.successHeaders
    rw [headerGet_set_ne _ _ _ _ (by decide), headerGet_set_ne _ _ _ _ (by decide),
      headerGet_set_ne _ _ _ _ (by decide), headerGet_set_ne _ _ _ _ (by decide),
      headerGet_set_ne _ _ _ _ (by decide)]
    exact headerGet_set_eq _ _ _ _ (by decide)
  refine ⟨?_, ?_⟩
  · intro cfg o rl target upstream
    rcases target with _ | _ | u
    · simp only [Worker.handleProxy]
      split_ifs <;> exact hcors o _
    · simp only [Worker.handleProxy]
      split_ifs <;> exact hcors o _
    · rcases upstream with _ | ⟨ust, cl, uhs⟩
      · simp only [Worker.handleProxy]
        split_ifs <;> exact hcors o _
      · rcases cl with _ | len
        · simp only [Worker.handleProxy]
          split_ifs <;> first
            | exact hcors o _
            | exact hsucc o uhs
        · simp only [Worker.handleProxy]
          split_ifs <;> first
            | exact hcors o _
            | exact hsucc o uhs
  · intro cfg origin protocol host path pr fetched v
    rcases fetched with _ | r
    · simp only [Server.pathHandler]
      split
      · intro h
        simp [headerGet] at h
      split
      · intro h
        simp [headerGet] at h
      split
      · intro h
        exact corsHeadersFor_acao cfg origin v h
      · intro h
        exact corsHeadersFor_acao cfg origin v h
    · simp only [Server.pathHandler]
      split
      · intro h
        simp [headerGet] at h
      split
      · intro h
        simp [headerGet] at h
      split
      · intro h
        exact corsHeadersFor_acao cfg origin v h
      · split
        · intro h
          exact corsHeadersFor_acao cfg origin v h
        · simp only [Server.streamStage]
          split
          · intro h
            exact staged_headers_acao cfg origin r.headers v h
          · intro h
            rw [headerGet_set_ne _ _ _ _ (by decide),
              headerGet_remove_of_not_mem _ _ _ (by decide)] at h
            exact staged_headers_acao cfg origin r.headers v h
          · intro h
            rw [headerGet_set_ne _ _ _ _ (by decide)] at h
            exact staged_headers_acao cfg origin r.headers v h

/-- C9 witness: the amended statement applied to a concrete allowlisted
origin on the worker's error and success paths and on the self-hosted
handler's streamed path. -/
theorem c9_acao_echoes_request_origin_witness :
    headerGet (Worker.handleProxy Worker.defaultConfig (some "https://app.pondpilot.io") true
      Worker.TargetParam.missing Worker.FetchOutcome.fetchFailed).headers
      "access-control-allow-origin" = some "https://app.pondpilot.io" ∧
    (some "https://app.pondpilot.io" : Option String) = some "https://app.pondpilot.io" :=
  ⟨c9_acao_echoes_request_origin.1 Worker.defaultConfig "https://app.pondpilot.io" true
      Worker.TargetParam.missing Worker.FetchOutcome.fetchFailed,
   c9_acao_echoes_request_origin.2
      ⟨["https://app.pondpilot.io"], [lits "bucket.s3.amazonaws.com"], ["https:"], true, 500⟩
      (some "https://app.pondpilot.io") "https" "bucket.s3.amazonaws.com" "f.csv"
      (some ⟨"https:", "bucket.s3.amazonaws.com"⟩)
      (Server.FetchResult.ok ⟨200, none, [], []⟩) "https://app.pondpilot.io" (by decide)⟩

/-- C4: the claim requires that no denylisted upstream header is forwarded
by either front end.  The self-hosted handler forwards upstream values only
under the six allowlisted names, so it satisfies it on every response it
sends (the destroyed-connection case aborts the response instead); but the
cloudflare worker copies the entire upstream header list into the client
response, forwarding `Set-Cookie` and `Content-Security-Policy` verbatim,
which contradicts both the claim and the repository's own SECURITY.md. -/
theorem c4_worker_forwards_denied_headers :
    headerGet (Worker.handleProxy Worker.defaultConfig (some "https://app.pondpilot.io") true
      (Worker.TargetParam.parsed ⟨"https:", "bucket.s3.amazonaws.com"⟩)
      (Worker.FetchOutcome.response 200 (some 10)
        [("Set-Cookie", "session=abc"),
         ("Content-Security-Policy", "default-src self")])).headers "set-cookie" =
      some "session=abc" ∧
    headerGet (Worker.handleProxy Worker.defaultConfig (some "https://app.pondpilot.io") true
      (Worker.TargetParam.parsed ⟨"https:", "bucket.s3.amazonaws.com"⟩)
      (Worker.FetchOutcome.response 200 (some 10)
        [("Set-Cookie", "session=abc"),
         ("Content-Security-Policy", "default-src self")])).headers "content-security-policy" =
      some "default-src self" ∧
    (∀ (up : List (String × String)) (d : String), d ∈ deniedUpstreamHeaders →
      headerGet (Server.forwardedHeaders up) d = none) ∧
    (∀ (cfg : Server.Config) (origin : Option String) (protocol host path : String)
       (pr : Option ParsedUrl) (fetched : Server.FetchResult) (d : String),
      d ∈ deniedUpstreamHeaders →
      (headerGet (Server.pathHandler cfg origin protocol host path pr fetched).headers d =
        none ∨
       ∃ w, (Server.pathHandler cfg origin protocol host path pr fetched).kind =
        Server.RespKind.destroyed w)) := by
  refine ⟨by decide, by decide, ?_, ?_⟩
  · intro up d hd
    exact headerGet_eq_none_of_names _ _ _ (forwardedHeaders_names up)
      (by fin_cases hd <;> decide)
  · intro cfg origin protocol host path pr fetched d hd
    have hcorsn : headerGet (Server.corsHeadersFor cfg origin) d = none :=
      headerGet_eq_none_of_names _ _ _ (corsHeadersFor_names cfg origin)
        (by fin_cases hd <;> decide)
    rcases fetched with _ | r
    · simp only [Server.pathHandler]
      split
      · left
        rfl
      split
      · left
        rfl
      split
      · left
        exact hcorsn
      · left
        exact hcorsn
    · simp only [Server.pathHandler]
      split
      · left
        rfl
      split
      · left
        rfl
      split
      · left
        exact hcorsn
      · split
        · left
          exact hcorsn
        · simp only [Server.streamStage]
          split
          · left
            exact staged_headers_denied_none cfg origin r.headers d hd
          · left
            rw [headerGet_set_ne _ _ _ _ (by fin_cases hd <;> decide),
              headerGet_remove_of_not_mem _ _ _ (by fin_cases hd <;> decide)]
            exact staged_headers_denied_none cfg origin r.headers d hd
          · right
            exact ⟨_, rfl⟩

/-- C4 witness: the self-hosted filter drops an upstream `Set-Cookie`, and a
complete streamed response carries no `x-frame-options`. -/
theorem c4_worker_forwards_denied_headers_witness :
    headerGet (Server.forwardedHeaders
      [("Set-Cookie", "session=abc"), ("Content-Type", "text/csv")]) "set-cookie" = none ∧
    (headerGet (Server.pathHandler
        ⟨["https://app.pondpilot.io"], [lits "bucket.s3.amazonaws.com"], ["https:"], true, 500⟩
        (some "https://app.pondpilot.io") "https" "bucket.s3.amazonaws.com" "f.csv"
        (some ⟨"https:", "bucket.s3.amazonaws.com"⟩)
        (Server.FetchResult.ok ⟨200, none, [("X-Frame-Options", "DENY")], []⟩)).headers
        "x-frame-options" = none ∨
     ∃ w, (Server.pathHandler
        ⟨["https://app.pondpilot.io"], [lits "bucket.s3.amazonaws.com"], ["https:"], true, 500⟩
        (some "https://app.pondpilot.io") "https" "bucket.s3.amazonaws.com" "f.csv"
        (some ⟨"https:", "bucket.s3.amazonaws.com"⟩)
        (Server.FetchResult.ok ⟨200, none, [("X-Frame-Options", "DENY")], []⟩)).kind =
        Server.RespKind.destroyed w) :=
  ⟨c4_worker_forwards_denied_headers.2.2.1
      [("Set-Cookie", "session=abc"), ("Content-Type", "text/csv")] "set-cookie" (by decide),
   c4_worker_forwards_denied_headers.2.2.2
      ⟨["https://app.pondpilot.io"], [lits "bucket.s3.amazonaws.com"], ["https:"], true, 500⟩
      (some "https://app.pondpilot.io") "https" "bucket.s3.amazonaws.com" "f.csv"
      (some ⟨"https:", "bucket.s3.amazonaws.com"⟩)
      (Server.FetchResult.ok ⟨200, none, [("X-Frame-Options", "DENY")], []⟩)
      "x-frame-options" (by decide)⟩

/-- A plain host character is not the wildcard. -/
theorem plain_not_star {c : Char} (h : plainHostChar c = true) : (c == '*') = false := by
  by_contra hcon
  simp only [Bool.not_eq_false, beq_iff_eq] at hcon
  subst hcon
  exact absurd h (by decide)

/-- Without any wildcard there is no dangerous pair. -/
theorem hasDangerousPair_no_star (l : List Char) (h : ∀ c ∈ l, (c == '*') = false) :
    Shared.hasDangerousPair l = false := by
  induction l with
  | nil => rfl
  | cons c rest ih =>
    simp only [Shared.hasDangerousPair]
    rw [h c (List.mem_cons_self c rest)]
    simp only [Bool.false_and, Bool.false_or]
    exact ih fun c hc => h c (List.mem_cons_of_mem _ hc)

/-- If compilation succeeds elementwise with the same result, `filterMap`
collapses to `map`. -/
theorem filterMap_compile_eq_map (l : List String)
    (h : ∀ p ∈ l, Shared.compileSegment p = some (SelfSec.compilePattern p)) :
    l.filterMap Shared.compileSegment = l.map SelfSec.compilePattern := by
  induction l with
  | nil => rfl
  | cons a t ih =>
    rw [List.filterMap_cons, h a (List.mem_cons_self a t), List.map_cons]
    rw [ih fun p hp => h p (List.mem_cons_of_mem _ hp)]

/-- C10 (amended): the two `parseAllowedDomains` implementations agree — and
accept exactly the same hostnames — on every configuration string whose
segments are nonempty, at most 100 characters, and built only from
alphanumerics, dots and hyphens (in particular wildcard-free); the
counterexample shows they already disagree once a wildcard appears. -/
theorem c10_parsers_agree_on_plain_patterns (s : String)
    (htrim : trimStr s ≠ "")
    (hne : splitSegments s ≠ [])
    (hplain : ∀ p ∈ splitSegments s, p.length ≤ 100 ∧ ∀ c ∈ p.data, plainHostChar c = true) :
    Shared.parseAllowedDomains (some s) = SelfSec.parseAllowedDomains (some s) ∧
    ∀ hostname : String,
      Shared.isAllowedDomain hostname (Shared.parseAllowedDomains (some s)) =
      SelfSec.isAllowedDomain hostname (SelfSec.parseAllowedDomains (some s)) := by
  have hcs : ∀ p ∈ splitSegments s, Shared.compileSegment p = some (SelfSec.compilePattern p) := by
    intro p hp
    obtain ⟨hlen, hchars⟩ := hplain p hp
    have hnostar : ∀ c ∈ p.data, (c == '*') = false := fun c hc => plain_not_star (hchars c hc)
    have h1 : decide (p.length > 100) = false := by
      simp only [decide_eq_false_iff_not, not_lt]
      exact hlen
    have h2 : Shared.wildcardCount p = 0 := by
      apply List.countP_eq_zero.mpr
      intro c hc
      simp [hnostar c hc]
    have h3 : Shared.hasDangerousPair p.data = false := hasDangerousPair_no_star p.data hnostar
    have hcomp : Shared.compilePattern p = SelfSec.compilePattern p := by
      apply List.map_congr_left
      intro c hc
      simp [hnostar c hc]
    simp [Shared.compileSegment, Shared.validatePatternComplexity, h1, h2, h3, hcomp]
  have heq : Shared.parseAllowedDomains (some s) = SelfSec.parseAllowedDomains (some s) := by
    simp only [Shared.parseAllowedDomains, SelfSec.parseAllowedDomains]
    rw [if_neg htrim, if_neg htrim, filterMap_compile_eq_map _ hcs]
    rw [if_pos (by simpa using List.length_pos.mpr hne)]
  refine ⟨heq, fun hostname => ?_⟩
  rw [heq]
  rfl

/-- C10 witness: on `example.com,data.gov` the two implementations compile
identical matcher lists and agree on `api.example.com`. -/
theorem c10_parsers_agree_witness :
    Shared.parseAllowedDomains (some "example.com,data.gov") =
      SelfSec.parseAllowedDomains (some "example.com,data.gov") ∧
    Shared.isAllowedDomain "api.example.com"
      (Shared.parseAllowedDomains (some "example.com,data.gov")) =
    SelfSec.isAllowedDomain "api.example.com"
      (SelfSec.parseAllowedDomains (some "example.com,data.gov")) :=
  ⟨(c10_parsers_agree_on_plain_patterns "example.com,data.gov" (by decide) (by decide)
      (by decide)).1,
   (c10_parsers_agree_on_plain_patterns "example.com,data.gov" (by decide) (by decide)
      (by decide)).2 "api.example.com"⟩

/-- C7: from the initial state the streaming enforcer forwards a prefix of
the upstream chunks whose total never exceeds the byte ceiling, with a
monotonically non-decreasing counter equal to the sum of what was written; a
pre-flush overflow happens with nothing written, and the handler then
replaces the staged response by a 413 with the upstream headers removed and
`Cache-Control: no-store`, while a mid-stream overflow destroys the
connection after a `Connection: close` attempt. -/
theorem c7_stream_size_enforcer :
    (∀ (maxBytes : Nat) (chunks : List Nat),
      (Server.streamLoop maxBytes 0 false [] chunks).written.sum =
        (Server.streamLoop maxBytes 0 false [] chunks).total ∧
      (Server.streamLoop maxBytes 0 false [] chunks).total ≤ maxBytes ∧
      (Server.streamLoop maxBytes 0 false [] chunks).written <+: chunks ∧
      List.Chain' (· ≤ ·)
        (runningTotals (Server.streamLoop maxBytes 0 false [] chunks).written)) ∧
    (∀ (maxBytes : Nat) (chunks w : List Nat) (t c : Nat),
      Server.streamLoop maxBytes 0 false [] chunks =
        Server.StreamResult.overflowPreFlush w t c →
      w = [] ∧ t = 0 ∧ maxBytes < c) ∧
    (∀ (mb status : Nat) (staged : List (String × String)) (chunks w : List Nat) (t c : Nat),
      Server.streamLoop (mb * 1048576) 0 false [] chunks =
        Server.StreamResult.overflowPreFlush w t c →
      Server.streamStage mb status staged chunks =
        ⟨413, headerSet (removeHeadersNamed staged Server.headersToForward)
          "Cache-Control" "no-store", Server.RespKind.errorJson Server.PathErr.tooLargeAbort⟩ ∧
      headerGet (Server.streamStage mb status staged chunks).headers "cache-control" =
        some "no-store" ∧
      (∀ nm ∈ Server.headersToForward,
        headerGet (Server.streamStage mb status staged chunks).headers nm = none)) ∧
    (∀ (mb status : Nat) (staged : List (String × String)) (chunks w : List Nat) (t : Nat),
      Server.streamLoop (mb * 1048576) 0 false [] chunks =
        Server.StreamResult.overflowMidStream w t →
      Server.streamStage mb status staged chunks =
        ⟨status, headerSet staged "Connection" "close", Server.RespKind.destroyed w⟩) := by
  refine ⟨?_, ?_, ?_, ?_⟩
  · intro maxBytes chunks
    have inv := streamLoop_invariant maxBytes chunks 0 false [] rfl (Nat.zero_le _)
    obtain ⟨u, hu, hp⟩ := inv.2.2.1
    refine ⟨inv.1, inv.2.1, ?_, ?_⟩
    · rw [hu]
      simpa using hp
    · exact scanl_add_chain _ 0
  · intro maxBytes chunks w t c h
    have inv := streamLoop_invariant maxBytes chunks 0 false [] rfl (Nat.zero_le _)
    obtain ⟨h1, h2, _, h4⟩ := inv.2.2.2 w t c h
    exact ⟨h1, h2, by omega⟩
  · intro mb status staged chunks w t c h
    have hs : Server.streamStage mb status staged chunks =
        ⟨413, headerSet (removeHeadersNamed staged Server.headersToForward)
          "Cache-Control" "no-store", Server.RespKind.errorJson Server.PathErr.tooLargeAbort⟩ := by
      unfold Server.streamStage
      rw [h]
    refine ⟨hs, ?_, ?_⟩
    · rw [hs]
      exact headerGet_set_eq _ _ _ _ (by decide)
    · intro nm hm
      rw [hs]
      show headerGet (headerSet (removeHeadersNamed staged Server.headersToForward)
        "Cache-Control" "no-store") nm = none
      fin_cases hm <;>
        · rw [headerGet_set_ne _ _ _ _ (by decide)]
          exact headerGet_remove_of_mem _ _ _ (by decide)
  · intro mb status staged chunks w t h
    unfold Server.streamStage
    rw [h]

/-- C7 witness: a 6-byte stream against a 5-byte ceiling stays within it; a
first chunk of 7 against a ceiling of 5 overflows pre-flush with nothing
written; the pre-flush abort removes the staged content-type and the
mid-stream overflow destroys the connection. -/
theorem c7_stream_size_enforcer_witness :
    (Server.streamLoop 5 0 false [] [3, 3]).total ≤ 5 ∧
    (([] : List Nat) = [] ∧ (0 : Nat) = 0 ∧ 5 < 7) ∧
    headerGet (Server.streamStage 0 200 [("content-type", "text/csv")] [1]).headers
      "content-type" = none ∧
    Server.streamStage 0 200 [] [0, 1] =
      ⟨200, headerSet [] "Connection" "close", Server.RespKind.destroyed [0]⟩ :=
  ⟨(c7_stream_size_enforcer.1 5 [3, 3]).2.1,
   c7_stream_size_enforcer.2.1 5 [7] [] 0 7 (by decide),
   (c7_stream_size_enforcer.2.2.1 0 200 [("content-type", "text/csv")] [1] [] 0 1
      (by decide)).2.2 "content-type" (by decide),
   c7_stream_size_enforcer.2.2.2 0 200 [] [0, 1] [0] 0 (by decide)⟩
